import Mathlib

/-!
Verification development for the Rizo Battle Bot core (`src/app.py`).

The two components with algorithmic content are embedded shallowly:

* `parse_stats_from_text` — the stat normalizer.  The Python function runs
  three `re.search` calls (hp / defense / serial) and one `re.findall`
  (attack label/number pairs) over the recognized text.  All the character
  classes involved (`[a-z\s]` with IGNORECASE, `[:\s]`, `\s`, `[0-9]{1,4}`,
  literal keywords) are pairwise disjoint from the digit class, so the
  backtracking regex engine degenerates to the deterministic scans modelled
  here; this is argued class-by-class at each definition.  Text is modelled
  as `List Char` (ASCII; Python's `str.lower`/`str.title`/`\s` agree with
  the ASCII model on every input the claims mention).
* `simulate_battle` — the battle resolver.  Python floats are modelled as
  exact rationals (`ℚ`): the constants 0.8, 1.2, 0.5, 1.5, 0.1 and the
  uniform draw are carried exactly, and Python's `int()` truncation toward
  zero is `pyint`.  The ambient `random` calls are threaded as an explicit
  `Rng`: one attack-choice draw and one uniform draw per turn.
-/

set_option maxRecDepth 4000

/-- ASCII letter test: the character class `[a-z]` under `re.IGNORECASE`. -/
def isAsciiLetter (c : Char) : Bool :=
  ('a' ≤ c && c ≤ 'z') || ('A' ≤ c && c ≤ 'Z')

/-- Whitespace as matched by Python regex `\s` on ASCII text:
space, tab, LF, CR, VT (0x0b), FF (0x0c). -/
def isPySpace (c : Char) : Bool :=
  c == ' ' || c == '\t' || c == '\n' || c == '\r' ||
  c == Char.ofNat 11 || c == Char.ofNat 12

/-- Character class `[:\s]` (after the `hp` / `defense` keywords). -/
def isColonSpace (c : Char) : Bool := c == ':' || isPySpace c

/-- Character class `[a-z\s]` with IGNORECASE: the label class of the
attack regex `([a-z\s]+)\s*[:\-]?\s*([0-9]{1,4})`. -/
def isNameChar (c : Char) : Bool := isAsciiLetter c || isPySpace c

/-- Boolean prefix test on character lists. -/
def isPrefixB : List Char → List Char → Bool
  | [], _ => true
  | _ :: _, [] => false
  | a :: as, b :: bs => a == b && isPrefixB as bs

/-- Boolean substring test on character lists (Python's `in` operator,
also the semantics of searching for a literal). -/
def isSubstrB (needle : List Char) : List Char → Bool
  | [] => needle.isEmpty
  | c :: rest => isPrefixB needle (c :: rest) || isSubstrB needle rest

/-- Numeric value of a digit run, as produced by Python `int` on the
captured group. -/
def digitsToNat (ds : List Char) : Nat :=
  ds.foldl (fun a c => a * 10 + (c.toNat - 48)) 0

/-- Greedy capture of `([0-9]{1,4})`: up to four leading digits, and the
remaining text after them.  (Callers check that at least one digit was
captured.) -/
def takeDigits (s : List Char) : List Char × List Char :=
  let ds := (s.takeWhile Char.isDigit).take 4
  (ds, s.drop ds.length)

/-- Model of `re.search(prefix ++ skip* ++ [0-9]{1,4}, s)` returning the
captured number.  `pre s` matches the literal/alternation prefix of the
pattern at the head of `s` and returns the rest; `skip` is the skipped
character class.  Since the skipped class never contains a digit,
backtracking the greedy `skip*` can never create a match, so the Python
engine accepts at a position iff the first non-`skip` character after the
prefix is a digit — exactly what is checked here.  On failure the scan
resumes one character later, as `re.search` does. -/
def searchNum (pre : List Char → Option (List Char)) (skip : Char → Bool) :
    List Char → Option Nat
  | [] => none
  | c :: rest =>
    match pre (c :: rest) with
    | some after =>
      let t := after.dropWhile skip
      let ds := (t.takeWhile Char.isDigit).take 4
      if ds.isEmpty then searchNum pre skip rest else some (digitsToNat ds)
    | none => searchNum pre skip rest

/-- Prefix of the hp pattern `hp[:\s]*([0-9]{1,4})`. -/
def hpPre (s : List Char) : Option (List Char) :=
  if isPrefixB ("hp".data) s then some (s.drop 2) else none

/-- Optional trailing `e?` of the defense pattern (greedy; giving the `e`
back can never expose a digit, so no backtracking case is needed). -/
def dropOptE (s : List Char) : List Char :=
  if isPrefixB ("e".data) s then s.drop 1 else s

/-- Prefix of the defense pattern `defen(?:se|c)e?[:\s]*([0-9]{1,4})`:
literal `defen`, then the alternation `se` (tried first) or `c`, then an
optional `e`.  The alternatives start with distinct letters and release
only letters, so the first-success order is deterministic. -/
def defensePre (s : List Char) : Option (List Char) :=
  if isPrefixB ("defen".data) s then
    if isPrefixB ("se".data) (s.drop 5) then some (dropOptE (s.drop 7))
    else if isPrefixB ("c".data) (s.drop 5) then some (dropOptE (s.drop 6))
    else none
  else none

/-- Prefix of the serial pattern `#\s*([0-9]{1,4})`. -/
def serialPre (s : List Char) : Option (List Char) :=
  if isPrefixB ("#".data) s then some (s.drop 1) else none

/-- The part of the attack pattern after the label run:
`\s*[:\-]?\s*([0-9]{1,4})` matched at the end of a maximal `[a-z\s]` run.
The run cannot be followed by whitespace (whitespace belongs to the run),
so the first inner `\s*` is empty; then one optional `:` or `-`, then
`\s*`, then at least one digit.  Returns the captured digits and the
continuation point after them, or `none` when no match completes here. -/
def afterRun : List Char → Option (List Char × List Char)
  | [] => none
  | d :: tail =>
    if d.isDigit then some (takeDigits (d :: tail))
    else if d == ':' || d == '-' then
      if ((tail.dropWhile isPySpace).takeWhile Char.isDigit).isEmpty then none
      else some (takeDigits (tail.dropWhile isPySpace))
    else none

/-- Model of `re.findall(r"([a-z\s]+)\s*[:\-]?\s*([0-9]{1,4})", text,
re.IGNORECASE)`.  At a position whose character lies in `[a-z\s]`, group 1
greedily takes the maximal run of that class, and the tail of the pattern
is matched by `afterRun`.  Backtracking the greedy pieces only ever
releases letters, whitespace or the single punctuation character — never a
digit — so a match exists at the position iff this deterministic scan
finds one; non-overlapping continuation resumes after the captured digits,
failure resumes one character later.  The fuel argument (called with the
text length, which strictly dominates every resumption point) makes the
recursion structural. -/
def findAttacksF : Nat → List Char → List (List Char × Int)
  | 0, _ => []
  | _ + 1, [] => []
  | fuel + 1, c :: rest =>
    if isNameChar c then
      match afterRun ((c :: rest).dropWhile isNameChar) with
      | some (ds, cont) =>
        ((c :: rest).takeWhile isNameChar, (digitsToNat ds : Int)) :: findAttacksF fuel cont
      | none => findAttacksF fuel rest
    else findAttacksF fuel rest

/-- Python `str.strip()` on ASCII text. -/
def stripWs (l : List Char) : List Char :=
  ((l.dropWhile isPySpace).reverse.dropWhile isPySpace).reverse

/-- Worker for `titleCase`: the boolean records whether the previous
character was a cased (ASCII letter) character. -/
def titleCaseGo : List Char → Bool → List Char
  | [], _ => []
  | c :: cs, prevCased =>
    (if isAsciiLetter c then (if prevCased then c.toLower else c.toUpper) else c)
      :: titleCaseGo cs (isAsciiLetter c)

/-- Python `str.title()` on ASCII text: a letter is uppercased iff the
preceding character is not a letter. -/
def titleCase (l : List Char) : List Char := titleCaseGo l false

/-- The keyword list of the attack filter in `parse_stats_from_text`. -/
def attackKeywords : List (List Char) :=
  ["attack".data, "move".data, "strike".data, "blast".data, "slash".data]

/-- The body of the `for name, val in attack_patterns` loop: strip and
title-case the label, keep the pair iff the lowered label contains one of
the keywords. -/
def keepAttack (nv : List Char × Int) : Option (List Char × Int) :=
  let name := titleCase (stripWs nv.1)
  if attackKeywords.any (fun k => isSubstrB k (name.map Char.toLower)) then
    some (name, nv.2)
  else none

/-- The filtered attack list built by `parse_stats_from_text` before the
padding/truncation policy is applied. -/
def attackMatches (text : List Char) : List (List Char × Int) :=
  (findAttacksF text.length text).filterMap keepAttack

/-- The dict returned by `parse_stats_from_text`: the canonical StatBlock
minus the owner label.  Exactly two attacks, by construction. -/
structure ParsedStats where
  hp : Int
  defense : Int
  serial : Int
  attack1_name : List Char
  attack1_power : Int
  attack2_name : List Char
  attack2_power : Int
deriving DecidableEq

/-- Python `int(m.group(1)) if m else default`: the captured number, or
the field default when the search failed. -/
def optNat (o : Option Nat) (d : Int) : Int :=
  match o with
  | some n => (n : Int)
  | none => d

/-- `parse_stats_from_text` from `src/app.py`: field extraction with
defaults 100 / 50 / 1000, then the attack-list resolution policy
(`if not attacks … elif len(attacks) == 1 … else attacks[:2]`). -/
def parse_stats_from_text (text : List Char) : ParsedStats :=
  let lower := text.map Char.toLower
  let hp : Int := optNat (searchNum hpPre isColonSpace lower) 100
  let defense : Int := optNat (searchNum defensePre isColonSpace lower) 50
  let serial : Int := optNat (searchNum serialPre isPySpace text) 1000
  match attackMatches text with
  | [] => ⟨hp, defense, serial, "Basic Strike".data, 30, "Heavy Blow".data, 40⟩
  | [a] => ⟨hp, defense, serial, a.1, a.2, "Heavy Blow".data, a.2 + 10⟩
  | a :: b :: _ => ⟨hp, defense, serial, a.1, a.2, b.1, b.2⟩

/-- A card dict as consumed by `simulate_battle`: the parsed stats plus the
owner's username. -/
structure Card where
  username : String
  hp : Int
  defense : Int
  serial : Int
  attack1_name : List Char
  attack1_power : Int
  attack2_name : List Char
  attack2_power : Int
deriving DecidableEq

/-- `calculate_hp` from `src/app.py`:
`max(1, hp_base + (2000 - serial_num) // 50)`.  Python `//` is floor
division, `Int.fdiv` here. -/
def calculate_hp (card : Card) : Int :=
  max 1 (card.hp + Int.fdiv (2000 - card.serial) 50)

/-- The four element values produced by `get_element`. -/
inductive Element
  | fire
  | water
  | earth
  | normal
deriving DecidableEq

/-- `get_element` from `src/app.py`: case-insensitive substring checks on
the move name, in priority order fire, water, earth, else normal. -/
def get_element (move_name : List Char) : Element :=
  let name := move_name.map Char.toLower
  if isSubstrB ("fire".data) name then .fire
  else if isSubstrB ("water".data) name then .water
  else if isSubstrB ("earth".data) name then .earth
  else .normal

/-- The `ELEMENTAL_MODIFIERS` nested dict of `src/app.py`, as the total
lookup `ELEMENTAL_MODIFIERS.get(elem1, {}).get(elem2, 1.0)`: the listed
entries, and 1.0 for every combination not listed (the `normal` row and
column).  0.5 and 1.5 are exact in binary floating point, so `ℚ` is
faithful. -/
def ELEMENTAL_MODIFIERS (elem1 elem2 : Element) : ℚ :=
  match elem1, elem2 with
  | .fire, .water => 1 / 2
  | .fire, .earth => 1
  | .fire, .fire => 1
  | .water, .fire => 3 / 2
  | .water, .earth => 1
  | .water, .water => 1
  | .earth, .fire => 1
  | .earth, .water => 1
  | .earth, .earth => 1
  | _, _ => 1

/-- Python `int()` on a real value: truncation toward zero. -/
def pyint (q : ℚ) : Int := if 0 ≤ q then ⌊q⌋ else -⌊-q⌋

/-- The damage computation of one turn of `simulate_battle`:
`dmg = max(5, int(move_power * u * modifier - defender_defense * 0.1))`. -/
def damage_calc (move_power : Int) (u modifier : ℚ) (defender_defense : Int) : Int :=
  max 5 (pyint ((move_power : ℚ) * u * modifier - (defender_defense : ℚ) * (1 / 10)))

/-- One line of the battle log: attacker, move used, effectiveness percent
`int(modifier * 100)`, and damage dealt. -/
structure LogEntry where
  attacker : String
  move : List Char
  eff : Int
  dmg : Int
deriving DecidableEq

/-- The injectable random source: per turn, `choice` picks between the two
attacks (`true` = attack one) and `uniform` is the `random.uniform(0.8, 1.2)`
draw, modelled as an exact rational. -/
structure Rng where
  choice : Nat → Bool
  uniform : Nat → ℚ

/-- The dict returned by `simulate_battle`. -/
structure BattleOutcome where
  winner : Option String
  hp1_end : Int
  hp2_end : Int
  log : List LogEntry
deriving DecidableEq

/-- One iteration of the `while` loop of `simulate_battle`: pick the
attacker by turn parity, draw a move, compute the elemental modifier from
the chosen move versus the defender's first attack, apply the damage to
the defender, and emit the log line.  Returns (new hp1, new hp2, entry). -/
def stepTurn (card1 card2 : Card) (rng : Rng) (turn : Nat) (hp1 hp2 : Int) :
    Int × Int × LogEntry :=
  let attacker_card := if turn % 2 = 0 then card1 else card2
  let defender_card := if turn % 2 = 0 then card2 else card1
  let defender_defense := if turn % 2 = 0 then card2.defense else card1.defense
  let mv := if rng.choice turn then (attacker_card.attack1_name, attacker_card.attack1_power)
            else (attacker_card.attack2_name, attacker_card.attack2_power)
  let modifier := ELEMENTAL_MODIFIERS (get_element mv.1) (get_element defender_card.attack1_name)
  let dmg := damage_calc mv.2 (rng.uniform turn) modifier defender_defense
  let entry : LogEntry := ⟨attacker_card.username, mv.1, pyint (modifier * 100), dmg⟩
  if turn % 2 = 0 then (hp1, hp2 - dmg, entry) else (hp1 - dmg, hp2, entry)

/-- The `while hp1 > 0 and hp2 > 0 and turn < 100` loop of
`simulate_battle`.  Called with fuel 100 and turn 0; since `turn`
increments once per iteration, the `turn < 100` test always stops the loop
before the fuel runs out, so the fuel is only a structural-termination
device.  Returns (hp1, hp2, turn, log). -/
def simLoop (card1 card2 : Card) (rng : Rng) :
    Nat → Nat → Int → Int → List LogEntry → Int × Int × Nat × List LogEntry
  | 0, turn, hp1, hp2, log => (hp1, hp2, turn, log)
  | fuel + 1, turn, hp1, hp2, log =>
    if 0 < hp1 ∧ 0 < hp2 ∧ turn < 100 then
      let s := stepTurn card1 card2 rng turn hp1 hp2
      simLoop card1 card2 rng fuel (turn + 1) s.1 s.2.1 (log ++ [s.2.2])
    else (hp1, hp2, turn, log)

/-- `simulate_battle` from `src/app.py`: run the turn loop from the two
effective HP values, then build the outcome —
`winner = card1.username if hp1 > 0 else (card2.username if hp2 > 0 else None)`
and the final HPs clamped at 0. -/
def simulate_battle (card1 card2 : Card) (rng : Rng) : BattleOutcome :=
  let r := simLoop card1 card2 rng 100 0 (calculate_hp card1) (calculate_hp card2) []
  let winner : Option String :=
    if 0 < r.1 then some card1.username
    else if 0 < r.2.1 then some card2.username
    else none
  ⟨winner, max 0 r.1, max 0 r.2.1, r.2.2.2⟩

/-- Constant random source: always attack one, always `u = 1`. -/
def rngOne : Rng := ⟨fun _ => true, fun _ => 1⟩

/-- A high-HP card that survives the full 100-turn ceiling. -/
def tankCard (u : String) : Card :=
  ⟨u, 9999, 50, 2000, "Basic Strike".data, 30, "Heavy Blow".data, 40⟩

/-- A minimal card (base HP 1, defense 0): any battle between two of these
ends on the first turn. -/
def smallCard (u : String) : Card :=
  ⟨u, 1, 0, 2000, "Basic Strike".data, 30, "Heavy Blow".data, 40⟩

/-- A card whose first attack has power 10, fought at defense 5: the
smallest case separating truncation-of-difference from
difference-of-floors. -/
def plainCard (u : String) : Card :=
  ⟨u, 100, 5, 1000, "Basic Strike".data, 10, "Heavy Blow".data, 40⟩

/-- A second random source extensionally equal to `rngOne` on every turn
the loop can reach, but not definitionally equal to it. -/
def rngOne' : Rng := ⟨fun _ => true, fun n => if n < 500 then 1 else 0⟩

/-- The per-turn damage formula as the specification words it: floor the
raw damage and the reduction separately, then subtract, then apply the
floor of 5.  Stated only to compare against the code's `damage_calc`. -/
def damage_claimed (move_power : Int) (u modifier : ℚ) (defender_defense : Int) : Int :=
  max 5 (⌊(move_power : ℚ) * u * modifier⌋ - ⌊(defender_defense : ℚ) * (1 / 10)⌋)

/-! ### Helper lemmas -/

theorem max5_pyint (q : ℚ) : max 5 (pyint q) = max 5 ⌊q⌋ := by
  unfold pyint
  rcases le_or_lt 0 q with h | h
  · rw [if_pos h]
  · rw [if_neg (not_le.mpr h)]
    have h1 : ⌊q⌋ ≤ 0 := by
      have h0 := Int.floor_mono h.le
      simpa using h0
    have h2 : (0 : ℤ) ≤ ⌊-q⌋ := by
      have h0 := Int.floor_mono (neg_nonneg.mpr h.le)
      simpa using h0
    rw [max_eq_left (by omega), max_eq_left (by omega)]

theorem damage_calc_ge5 (p : Int) (u m : ℚ) (d : Int) : 5 ≤ damage_calc p u m d :=
  le_max_left _ _

/-- Claim C6: `calculate_hp` is exactly `max(1, hp + (2000 - serial) // 50)`
with floor division, is monotonically non-increasing in the serial for
fixed base hit points, is always at least 1, and a serial of exactly 2000
contributes no bonus. -/
theorem c6_effective_hp (card : Card) (s1 s2 : Int) (h : s1 ≤ s2) :
    calculate_hp card = max 1 (card.hp + Int.fdiv (2000 - card.serial) 50) ∧
    calculate_hp { card with serial := s2 } ≤ calculate_hp { card with serial := s1 } ∧
    1 ≤ calculate_hp card ∧
    calculate_hp { card with serial := 2000 } = max 1 card.hp := by
  refine ⟨rfl, ?_, le_max_left 1 _, ?_⟩
  · show max 1 (card.hp + Int.fdiv (2000 - s2) 50) ≤ max 1 (card.hp + Int.fdiv (2000 - s1) 50)
    have hd : Int.fdiv (2000 - s2) 50 ≤ Int.fdiv (2000 - s1) 50 := by
      rw [Int.fdiv_eq_ediv _ (by norm_num), Int.fdiv_eq_ediv _ (by norm_num)]
      exact Int.ediv_le_ediv (by norm_num) (by omega)
    exact max_le_max le_rfl (by omega)
  · show max 1 (card.hp + Int.fdiv (2000 - 2000) 50) = max 1 card.hp
    norm_num

/-- Witness for C6 at base HP 9999 and serials 1000 ≤ 2000. -/
theorem c6_effective_hp_witness :
    ((1000 : Int) ≤ 2000) ∧
    (calculate_hp (tankCard "a") =
        max 1 ((tankCard "a").hp + Int.fdiv (2000 - (tankCard "a").serial) 50) ∧
      calculate_hp { tankCard "a" with serial := 2000 } ≤
        calculate_hp { tankCard "a" with serial := 1000 } ∧
      1 ≤ calculate_hp (tankCard "a") ∧
      calculate_hp { tankCard "a" with serial := 2000 } = max 1 (tankCard "a").hp) :=
  ⟨by decide, c6_effective_hp (tankCard "a") 1000 2000 (by decide)⟩

/-- Claim C7: the element of a move name is a case-insensitive substring
check in priority order fire, water, earth, normal; the modifier table
yields exactly its listed entries and defaults to 1 for every unlisted
pair; a move named "Water Strike" against a defender whose first attack
resolves to fire gives exactly 3/2. -/
theorem c7_elemental_modifier :
    get_element ("Water Strike".data) = .water ∧
    get_element ("Fire Blast".data) = .fire ∧
    ELEMENTAL_MODIFIERS (get_element ("Water Strike".data))
        (get_element ("Fire Blast".data)) = 3 / 2 ∧
    (∀ e1 e2 : Element, ELEMENTAL_MODIFIERS e1 e2 =
      if e1 = .water ∧ e2 = .fire then 3 / 2
      else if e1 = .fire ∧ e2 = .water then 1 / 2
      else 1) ∧
    get_element ("water fire".data) = .fire ∧
    get_element ("WaTeR eArTh".data) = .water ∧
    get_element ("Basic Strike".data) = .normal := by
  refine ⟨by decide, by decide, by with_unfolding_all decide, ?_, by decide, by decide, by decide⟩
  intro e1 e2
  cases e1 <;> cases e2 <;> simp [ELEMENTAL_MODIFIERS]

/-- Claim C2 (counterexample): with move power 10, uniform draw u = 1
(inside [0.8, 1.2]), modifier 1 (normal versus normal) and defense 5, the
code's turn damage is `int(10·1·1 − 0.5) = 9`, while the claimed formula
`max(5, floor(10·1·1) − floor(0.5))` gives 10. -/
theorem c2_counterexample :
    (stepTurn (plainCard "a") (plainCard "b") rngOne 0 100 100).2.2.dmg = 9 ∧
    damage_claimed 10 1 1 5 = 10 ∧
    (stepTurn (plainCard "a") (plainCard "b") rngOne 0 100 100).2.2.dmg ≠
      damage_claimed 10 1 1 5 := by
  with_unfolding_all decide

/-- Claim C2 (amended): the damage of every turn is
`max(5, trunc(move_power · u · modifier − defense · 0.1))`, the truncation
applied to the already-subtracted value; under the outer `max 5` this
truncation toward zero coincides with the floor, so equivalently
`max(5, ⌊move_power · u · modifier − defense · 0.1⌋)`, and the damage the
turn logs and applies is exactly `damage_calc` at the drawn move, the
drawn uniform, the elemental modifier of the chosen move versus the
defender's first attack, and the defender's defense. -/
theorem c2_damage_formula_amended (move_power : Int) (u modifier : ℚ)
    (defender_defense : Int) (card1 card2 : Card) (rng : Rng) (turn : Nat) (hp1 hp2 : Int) :
    damage_calc move_power u modifier defender_defense =
      max 5 ⌊(move_power : ℚ) * u * modifier - (defender_defense : ℚ) * (1 / 10)⌋ ∧
    (stepTurn card1 card2 rng turn hp1 hp2).2.2.dmg =
      damage_calc
        (if rng.choice turn then (if turn % 2 = 0 then card1 else card2).attack1_power
         else (if turn % 2 = 0 then card1 else card2).attack2_power)
        (rng.uniform turn)
        (ELEMENTAL_MODIFIERS
          (get_element (if rng.choice turn then
              (if turn % 2 = 0 then card1 else card2).attack1_name
            else (if turn % 2 = 0 then card1 else card2).attack2_name))
          (get_element ((if turn % 2 = 0 then card2 else card1).attack1_name)))
        (if turn % 2 = 0 then card2.defense else card1.defense) := by
  constructor
  · unfold damage_calc
    exact max5_pyint _
  · by_cases ht : turn % 2 = 0 <;> by_cases hc : rng.choice turn <;>
      simp [stepTurn, ht, hc]

/-- Claim C1 (the code at the failing input): two 9999-HP cards survive all
100 turns — the log has exactly 100 lines and both final HPs are positive —
yet the returned outcome declares card one's owner the winner instead of
the no-winner sentinel, because the winner line tests `hp1 > 0` first. -/
theorem c1_ceiling_declares_winner_with_both_alive :
    (simulate_battle (tankCard "alice") (tankCard "bob") rngOne).log.length = 100 ∧
    0 < (simulate_battle (tankCard "alice") (tankCard "bob") rngOne).hp1_end ∧
    0 < (simulate_battle (tankCard "alice") (tankCard "bob") rngOne).hp2_end ∧
    (simulate_battle (tankCard "alice") (tankCard "bob") rngOne).winner = some "alice" := by
  with_unfolding_all decide

theorem simLoop_turn_log (card1 card2 : Card) (rng : Rng) :
    ∀ (fuel turn : Nat) (hp1 hp2 : Int) (log : List LogEntry),
      (simLoop card1 card2 rng fuel turn hp1 hp2 log).2.2.1 + log.length
        = turn + (simLoop card1 card2 rng fuel turn hp1 hp2 log).2.2.2.length := by
  intro fuel
  induction fuel with
  | zero => intro turn hp1 hp2 log; simp [simLoop]
  | succ fuel ih =>
    intro turn hp1 hp2 log
    by_cases h : 0 < hp1 ∧ 0 < hp2 ∧ turn < 100
    · simp only [simLoop, if_pos h]
      have h0 := ih (turn + 1) (stepTurn card1 card2 rng turn hp1 hp2).1
        (stepTurn card1 card2 rng turn hp1 hp2).2.1
        (log ++ [(stepTurn card1 card2 rng turn hp1 hp2).2.2])
      simp only [List.length_append, List.length_cons, List.length_nil] at h0
      omega
    · simp [simLoop, if_neg h]

theorem simLoop_turn_le (card1 card2 : Card) (rng : Rng) :
    ∀ (fuel turn : Nat) (hp1 hp2 : Int) (log : List LogEntry), turn ≤ 100 →
      (simLoop card1 card2 rng fuel turn hp1 hp2 log).2.2.1 ≤ 100 := by
  intro fuel
  induction fuel with
  | zero => intro turn hp1 hp2 log h; simpa [simLoop] using h
  | succ fuel ih =>
    intro turn hp1 hp2 log h
    by_cases hc : 0 < hp1 ∧ 0 < hp2 ∧ turn < 100
    · simp only [simLoop, if_pos hc]
      exact ih _ _ _ _ (by omega)
    · simpa [simLoop, if_neg hc] using h

/-- Claim C3: the turn loop always terminates, executes at most 100 turns —
the log holds exactly one line per executed turn, hence at most 100 lines —
and the winner field is card one's owner, card two's owner, or the
no-winner sentinel. -/
theorem c3_termination_and_outcome_shape (card1 card2 : Card) (rng : Rng) :
    (simulate_battle card1 card2 rng).log.length ≤ 100 ∧
    (simulate_battle card1 card2 rng).log.length
      = (simLoop card1 card2 rng 100 0 (calculate_hp card1) (calculate_hp card2) []).2.2.1 ∧
    ((simulate_battle card1 card2 rng).winner = some card1.username ∨
     (simulate_battle card1 card2 rng).winner = some card2.username ∨
     (simulate_battle card1 card2 rng).winner = none) := by
  have h1 := simLoop_turn_log card1 card2 rng 100 0 (calculate_hp card1) (calculate_hp card2) []
  have h2 := simLoop_turn_le card1 card2 rng 100 0 (calculate_hp card1) (calculate_hp card2) []
    (by norm_num)
  have hlog : (simulate_battle card1 card2 rng).log
      = (simLoop card1 card2 rng 100 0 (calculate_hp card1) (calculate_hp card2) []).2.2.2 := rfl
  simp only [List.length_nil] at h1
  have hw : (simulate_battle card1 card2 rng).winner
      = (if 0 < (simLoop card1 card2 rng 100 0 (calculate_hp card1) (calculate_hp card2) []).1
         then some card1.username
         else if 0 < (simLoop card1 card2 rng 100 0 (calculate_hp card1) (calculate_hp card2) []).2.1
         then some card2.username else none) := rfl
  refine ⟨by rw [hlog]; omega, by rw [hlog]; omega, ?_⟩
  by_cases ha : 0 < (simLoop card1 card2 rng 100 0 (calculate_hp card1) (calculate_hp card2) []).1
  · left; rw [hw, if_pos ha]
  · by_cases hb : 0 < (simLoop card1 card2 rng 100 0 (calculate_hp card1) (calculate_hp card2) []).2.1
    · right; left; rw [hw, if_neg ha, if_pos hb]
    · right; right; rw [hw, if_neg ha, if_neg hb]

theorem stepTurn_dmg_ge5 (card1 card2 : Card) (rng : Rng) (turn : Nat) (hp1 hp2 : Int) :
    5 ≤ (stepTurn card1 card2 rng turn hp1 hp2).2.2.dmg := by
  by_cases ht : turn % 2 = 0 <;> by_cases hc : rng.choice turn <;>
    simp [stepTurn, ht, hc] <;> exact damage_calc_ge5 _ _ _ _

theorem simLoop_log_dmg (card1 card2 : Card) (rng : Rng) :
    ∀ (fuel turn : Nat) (hp1 hp2 : Int) (log : List LogEntry),
      (∀ e ∈ log, 5 ≤ e.dmg) →
      ∀ e ∈ (simLoop card1 card2 rng fuel turn hp1 hp2 log).2.2.2, 5 ≤ e.dmg := by
  intro fuel
  induction fuel with
  | zero => intro turn hp1 hp2 log h; simpa [simLoop] using h
  | succ fuel ih =>
    intro turn hp1 hp2 log h
    by_cases hc : 0 < hp1 ∧ 0 < hp2 ∧ turn < 100
    · simp only [simLoop, if_pos hc]
      apply ih
      intro e he
      rcases List.mem_append.mp he with h1 | h1
      · exact h e h1
      · rcases List.mem_singleton.mp h1 with rfl
        exact stepTurn_dmg_ge5 card1 card2 rng turn hp1 hp2
    · simpa [simLoop, if_neg hc] using h

/-- Claim C8: every damage value recorded in the event log — the amount
subtracted from the defender's HP in that turn — is at least 5, for every
pair of cards and every random source. -/
theorem c8_min_damage (card1 card2 : Card) (rng : Rng) (e : LogEntry)
    (he : e ∈ (simulate_battle card1 card2 rng).log) : 5 ≤ e.dmg :=
  simLoop_log_dmg card1 card2 rng 100 0 (calculate_hp card1) (calculate_hp card2) []
    (by intro x hx; simp at hx) e he

/-- Witness for C8: the one-turn battle between two 1-HP cards logs the
entry with damage 30 ≥ 5. -/
theorem c8_min_damage_witness :
    (⟨"a", "Basic Strike".data, 100, 30⟩ : LogEntry)
        ∈ (simulate_battle (smallCard "a") (smallCard "b") rngOne).log ∧
    5 ≤ (⟨"a", "Basic Strike".data, 100, 30⟩ : LogEntry).dmg :=
  ⟨by with_unfolding_all decide,
   c8_min_damage (smallCard "a") (smallCard "b") rngOne _ (by with_unfolding_all decide)⟩

theorem stepTurn_congr (card1 card2 : Card) (r1 r2 : Rng) (turn : Nat) (hp1 hp2 : Int)
    (hc : r1.choice turn = r2.choice turn) (hu : r1.uniform turn = r2.uniform turn) :
    stepTurn card1 card2 r1 turn hp1 hp2 = stepTurn card1 card2 r2 turn hp1 hp2 := by
  unfold stepTurn
  rw [hc, hu]

theorem simLoop_congr (card1 card2 : Card) (r1 r2 : Rng)
    (h : ∀ n, n < 100 → r1.choice n = r2.choice n ∧ r1.uniform n = r2.uniform n) :
    ∀ (fuel turn : Nat) (hp1 hp2 : Int) (log : List LogEntry),
      simLoop card1 card2 r1 fuel turn hp1 hp2 log
        = simLoop card1 card2 r2 fuel turn hp1 hp2 log := by
  intro fuel
  induction fuel with
  | zero => intro turn hp1 hp2 log; simp [simLoop]
  | succ fuel ih =>
    intro turn hp1 hp2 log
    by_cases hc : 0 < hp1 ∧ 0 < hp2 ∧ turn < 100
    · have hs := stepTurn_congr card1 card2 r1 r2 turn hp1 hp2
        (h turn hc.2.2).1 (h turn hc.2.2).2
      simp only [simLoop, if_pos hc, hs, ih]
    · simp only [simLoop, if_neg hc]

/-- Claim C9: the resolution is deterministic in the injected random
source — two random sources producing the same draw sequence on every
reachable turn index yield identical outcomes: same winner, same final HP
pair, identical event log. -/
theorem c9_deterministic (card1 card2 : Card) (r1 r2 : Rng)
    (h : ∀ n, n < 100 → r1.choice n = r2.choice n ∧ r1.uniform n = r2.uniform n) :
    simulate_battle card1 card2 r1 = simulate_battle card1 card2 r2 := by
  unfold simulate_battle
  rw [simLoop_congr card1 card2 r1 r2 h]

/-- Witness for C9: two definitionally different random sources with equal
draws on turns 0 through 99 give equal outcomes. -/
theorem c9_deterministic_witness :
    (∀ n, n < 100 → rngOne.choice n = rngOne'.choice n ∧ rngOne.uniform n = rngOne'.uniform n) ∧
    simulate_battle (tankCard "alice") (tankCard "bob") rngOne
      = simulate_battle (tankCard "alice") (tankCard "bob") rngOne' := by
  have h : ∀ n, n < 100 →
      rngOne.choice n = rngOne'.choice n ∧ rngOne.uniform n = rngOne'.uniform n := by
    intro n hn
    refine ⟨rfl, ?_⟩
    show (1 : ℚ) = if n < 500 then 1 else 0
    rw [if_pos (by omega)]
  exact ⟨h, c9_deterministic (tankCard "alice") (tankCard "bob") rngOne rngOne' h⟩

theorem simLoop_pos (card1 card2 : Card) (rng : Rng) :
    ∀ (fuel turn : Nat) (hp1 hp2 : Int) (log : List LogEntry), (0 < hp1 ∨ 0 < hp2) →
      0 < (simLoop card1 card2 rng fuel turn hp1 hp2 log).1 ∨
      0 < (simLoop card1 card2 rng fuel turn hp1 hp2 log).2.1 := by
  intro fuel
  induction fuel with
  | zero => intro turn hp1 hp2 log h; simpa [simLoop] using h
  | succ fuel ih =>
    intro turn hp1 hp2 log h
    by_cases hc : 0 < hp1 ∧ 0 < hp2 ∧ turn < 100
    · simp only [simLoop, if_pos hc]
      apply ih
      by_cases ht : turn % 2 = 0
      · left
        simpa [stepTurn, ht] using hc.1
      · right
        simpa [stepTurn, ht] using hc.2.1
    · simpa [simLoop, if_neg hc] using h

/-- Claim C10: a mutual knockout is impossible — at least one reported
final HP is strictly positive, and consequently the both-sides-down code
path that would return the no-winner sentinel is unreachable: the winner
field is never `none`. -/
theorem c10_no_mutual_knockout (card1 card2 : Card) (rng : Rng) :
    (0 < (simulate_battle card1 card2 rng).hp1_end ∨
     0 < (simulate_battle card1 card2 rng).hp2_end) ∧
    (simulate_battle card1 card2 rng).winner ≠ none := by
  have h0 : (0 : Int) < calculate_hp card1 :=
    lt_of_lt_of_le one_pos (le_max_left 1 _)
  have h := simLoop_pos card1 card2 rng 100 0 (calculate_hp card1) (calculate_hp card2) []
    (Or.inl h0)
  have hw : (simulate_battle card1 card2 rng).winner
      = (if 0 < (simLoop card1 card2 rng 100 0 (calculate_hp card1) (calculate_hp card2) []).1
         then some card1.username
         else if 0 < (simLoop card1 card2 rng 100 0 (calculate_hp card1) (calculate_hp card2) []).2.1
         then some card2.username else none) := rfl
  have h1 : (simulate_battle card1 card2 rng).hp1_end
      = max 0 (simLoop card1 card2 rng 100 0 (calculate_hp card1) (calculate_hp card2) []).1 := rfl
  have h2 : (simulate_battle card1 card2 rng).hp2_end
      = max 0 (simLoop card1 card2 rng 100 0 (calculate_hp card1) (calculate_hp card2) []).2.1 := rfl
  constructor
  · rcases h with h | h
    · left; rw [h1]; exact lt_max_iff.mpr (Or.inr h)
    · right; rw [h2]; exact lt_max_iff.mpr (Or.inr h)
  · rcases h with h | h
    · rw [hw, if_pos h]; exact Option.some_ne_none _
    · by_cases ha : 0 < (simLoop card1 card2 rng 100 0 (calculate_hp card1) (calculate_hp card2) []).1
      · rw [hw, if_pos ha]; exact Option.some_ne_none _
      · rw [hw, if_neg ha, if_pos h]; exact Option.some_ne_none _

theorem findAttacksF_snd_nonneg :
    ∀ (fuel : Nat) (s : List Char) (p : List Char × Int),
      p ∈ findAttacksF fuel s → 0 ≤ p.2 := by
  intro fuel
  induction fuel with
  | zero => intro s p hp; simp [findAttacksF] at hp
  | succ fuel ih =>
    intro s p hp
    cases s with
    | nil => simp [findAttacksF] at hp
    | cons c rest =>
      by_cases h1 : isNameChar c
      · rcases har : afterRun ((c :: rest).dropWhile isNameChar) with _ | ⟨ds, cont⟩
        · simp only [findAttacksF, if_pos h1, har] at hp
          exact ih rest p hp
        · simp only [findAttacksF, if_pos h1, har] at hp
          rcases List.mem_cons.mp hp with h2 | h2
          · subst h2
            show (0 : Int) ≤ (digitsToNat ds : Int)
            exact Int.natCast_nonneg _
          · exact ih cont p h2
      · simp only [findAttacksF, if_neg h1] at hp
        exact ih rest p hp

theorem attackKeywords_ne_nil : ∀ k ∈ attackKeywords, k ≠ [] := by decide

theorem isSubstrB_ne_nil {k l : List Char} (h : isSubstrB k l = true) (hk : k ≠ []) :
    l ≠ [] := by
  intro hl
  subst hl
  simp only [isSubstrB] at h
  exact hk (by simpa using h)

theorem keepAttack_eq_some (nv b : List Char × Int) (h : keepAttack nv = some b) :
    b.2 = nv.2 ∧ b.1 ≠ [] := by
  simp only [keepAttack] at h
  by_cases hk : attackKeywords.any
      (fun k => isSubstrB k ((titleCase (stripWs nv.1)).map Char.toLower))
  · rw [if_pos hk] at h
    have hb : (titleCase (stripWs nv.1), nv.2) = b := Option.some.inj h
    subst hb
    refine ⟨rfl, ?_⟩
    rcases List.any_eq_true.mp hk with ⟨k, hkmem, hsub⟩
    have hknil := attackKeywords_ne_nil k hkmem
    have hmap := isSubstrB_ne_nil hsub hknil
    intro hnil
    have hnil' : titleCase (stripWs nv.1) = [] := hnil
    rw [hnil'] at hmap
    exact hmap rfl
  · rw [if_neg hk] at h
    exact absurd h (by simp)

theorem attackMatches_mem (text : List Char) (b : List Char × Int)
    (h : b ∈ attackMatches text) : 0 ≤ b.2 ∧ b.1 ≠ [] := by
  rcases List.mem_filterMap.mp h with ⟨a, ha, hk⟩
  have h1 := findAttacksF_snd_nonneg text.length text a ha
  have h2 := keepAttack_eq_some a b hk
  exact ⟨by rw [h2.1]; exact h1, h2.2⟩

theorem optNat_nonneg (o : Option Nat) (d : Int) (hd : 0 ≤ d) : 0 ≤ optNat o d := by
  cases o with
  | none => simpa [optNat] using hd
  | some n => simp [optNat]

/-- Claim C4: for every raw text input, including the empty string, the
normalizer is total (the embedding is a total function, mirroring the
Python function's lack of any raising operation) and returns a fully
populated record with exactly two attacks (structurally: the record always
carries both), all integer fields nonnegative and both labels
non-empty. -/
theorem c4_normalize_total_and_wellformed (text : List Char) :
    0 ≤ (parse_stats_from_text text).hp ∧
    0 ≤ (parse_stats_from_text text).defense ∧
    0 ≤ (parse_stats_from_text text).serial ∧
    0 ≤ (parse_stats_from_text text).attack1_power ∧
    0 ≤ (parse_stats_from_text text).attack2_power ∧
    (parse_stats_from_text text).attack1_name ≠ [] ∧
    (parse_stats_from_text text).attack2_name ≠ [] := by
  rcases hm : attackMatches text with _ | ⟨a, _ | ⟨b, l⟩⟩
  · simp only [parse_stats_from_text, hm]
    exact ⟨optNat_nonneg _ _ (by norm_num), optNat_nonneg _ _ (by norm_num),
      optNat_nonneg _ _ (by norm_num), by norm_num, by norm_num, by decide, by decide⟩
  · have hprops := attackMatches_mem text a
      (by rw [hm]; exact List.mem_singleton_self a)
    simp only [parse_stats_from_text, hm]
    exact ⟨optNat_nonneg _ _ (by norm_num), optNat_nonneg _ _ (by norm_num),
      optNat_nonneg _ _ (by norm_num), hprops.1, by have := hprops.1; omega,
      hprops.2, by decide⟩
  · have hpa := attackMatches_mem text a
      (by rw [hm]; exact List.mem_cons_self a (b :: l))
    have hpb := attackMatches_mem text b
      (by rw [hm]; exact List.mem_cons_of_mem a (List.mem_cons_self b l))
    simp only [parse_stats_from_text, hm]
    exact ⟨optNat_nonneg _ _ (by norm_num), optNat_nonneg _ _ (by norm_num),
      optNat_nonneg _ _ (by norm_num), hpa.1, hpb.1, hpa.2, hpb.2⟩

/-- Claim C5: the attack-resolution policy — zero keyword matches give the
fixed default pair, exactly one match is kept with a synthesized "Heavy
Blow" at matched power + 10, two or more matches keep the first two in
order of occurrence — together with the two concrete normalizations the
specification names. -/
theorem c5_attack_resolution_policy :
    (∀ text, attackMatches text = [] →
      (parse_stats_from_text text).attack1_name = "Basic Strike".data ∧
      (parse_stats_from_text text).attack1_power = 30 ∧
      (parse_stats_from_text text).attack2_name = "Heavy Blow".data ∧
      (parse_stats_from_text text).attack2_power = 40) ∧
    (∀ text a, attackMatches text = [a] →
      (parse_stats_from_text text).attack1_name = a.1 ∧
      (parse_stats_from_text text).attack1_power = a.2 ∧
      (parse_stats_from_text text).attack2_name = "Heavy Blow".data ∧
      (parse_stats_from_text text).attack2_power = a.2 + 10) ∧
    (∀ text a b l, attackMatches text = a :: b :: l →
      (parse_stats_from_text text).attack1_name = a.1 ∧
      (parse_stats_from_text text).attack1_power = a.2 ∧
      (parse_stats_from_text text).attack2_name = b.1 ∧
      (parse_stats_from_text text).attack2_power = b.2) ∧
    parse_stats_from_text "HP: 120 Defense: 40 #500 Fire Blast: 55".data =
      ⟨120, 40, 500, "Fire Blast".data, 55, "Heavy Blow".data, 65⟩ ∧
    parse_stats_from_text "".data =
      ⟨100, 50, 1000, "Basic Strike".data, 30, "Heavy Blow".data, 40⟩ := by
  refine ⟨?_, ?_, ?_, by decide, by decide⟩
  · intro text hm
    simp [parse_stats_from_text, hm]
  · intro text a hm
    simp [parse_stats_from_text, hm]
  · intro text a b l hm
    simp [parse_stats_from_text, hm]

/-- Witness for C5 at the single-match input "Fire Blast: 55". -/
theorem c5_attack_resolution_policy_witness :
    attackMatches ("Fire Blast: 55".data) = [("Fire Blast".data, (55 : Int))] ∧
    ((parse_stats_from_text ("Fire Blast: 55".data)).attack1_name = "Fire Blast".data ∧
     (parse_stats_from_text ("Fire Blast: 55".data)).attack1_power = (55 : Int) ∧
     (parse_stats_from_text ("Fire Blast: 55".data)).attack2_name = "Heavy Blow".data ∧
     (parse_stats_from_text ("Fire Blast: 55".data)).attack2_power = (55 : Int) + 10) :=
  ⟨by decide, c5_attack_resolution_policy.2.1 ("Fire Blast: 55".data)
      ("Fire Blast".data, (55 : Int)) (by decide)⟩
